import Mathlib

/-!
Shallow embedding of the WebSocket multiplexing/session layer of the
superchain-client library, together with proofs checking the design spec
against it.

The primary generation modeled is `src/rust/src/providers/ws.rs`
(`BackgroundWorker`, `WsProvider`, line-structured frame headers); the
earlier generation `src/src/providers/ws.rs` (binary trailer headers) is
modeled where the claims reference it.  Block-range bounds come from
`src/rust/src/core/types/query.rs` and errors from
`src/rust/src/core/error.rs`.
-/

namespace Superchain

/-! ## Association-list model of `HashMap`

The worker keeps three `HashMap<Uuid, _>` maps.  We model each as an
association list with distinct keys; `ainsert` replaces in place (as
`HashMap::insert` does) and `aerase` removes the entry for a key. -/

section Alist

variable {α : Type} [DecidableEq α] {β : Type}

/-- Lookup, as `HashMap` lookup. -/
def alookup : List (α × β) → α → Option β
  | [], _ => none
  | (k, v) :: rest, key => if k = key then some v else alookup rest key

/-- Insert, as `HashMap::insert`: replace the value when the key is present, else append. -/
def ainsert : List (α × β) → α → β → List (α × β)
  | [], k, v => [(k, v)]
  | (k', v') :: rest, k, v =>
    if k' = k then (k, v) :: rest else (k', v') :: ainsert rest k v

/-- Removal, as `HashMap::remove` / `Entry::remove`: drop the entry for the key. -/
def aerase : List (α × β) → α → List (α × β)
  | [], _ => []
  | (k', v') :: rest, k => if k' = k then rest else (k', v') :: aerase rest k

/-- Key distinctness: the well-formedness invariant a `HashMap` guarantees. -/
def nodupKeys (l : List (α × β)) : Prop := (l.map Prod.fst).Nodup

instance (l : List (α × β)) : Decidable (nodupKeys l) :=
  inferInstanceAs (Decidable ((l.map Prod.fst).Nodup))

theorem mem_keys_ainsert (l : List (α × β)) (k : α) (v : β) (x : α) :
    x ∈ (ainsert l k v).map Prod.fst ↔ x = k ∨ x ∈ l.map Prod.fst := by
  induction l with
  | nil => simp [ainsert]
  | cons p rest ih =>
    obtain ⟨k0, v0⟩ := p
    by_cases h0 : k0 = k
    · subst h0; simp [ainsert]
    · simp only [ainsert, if_neg h0, List.map_cons, List.mem_cons, ih]
      tauto

theorem mem_keys_aerase (l : List (α × β)) (k : α) (x : α) :
    x ∈ (aerase l k).map Prod.fst → x ∈ l.map Prod.fst := by
  induction l with
  | nil => simp [aerase]
  | cons p rest ih =>
    obtain ⟨k0, v0⟩ := p
    by_cases h0 : k0 = k
    · subst h0; intro hx; simpa using Or.inr (by simpa [aerase] using hx)
    · intro hx
      rcases (by simpa [aerase, h0] using hx :
          x = k0 ∨ x ∈ (aerase rest k).map Prod.fst) with h1 | h1
      · simp [h1]
      · simpa using Or.inr (ih h1)

theorem alookup_eq_none_of_not_mem (l : List (α × β)) (k : α)
    (h : k ∉ l.map Prod.fst) : alookup l k = none := by
  induction l with
  | nil => simp [alookup]
  | cons p rest ih =>
    obtain ⟨k0, v0⟩ := p
    have hk0 : k0 ≠ k := by intro hEq; exact h (by simp [hEq])
    have hrest : k ∉ rest.map Prod.fst := by intro hm; exact h (by simp [hm])
    simp [alookup, hk0, ih hrest]

theorem alookup_ainsert (l : List (α × β)) (k k' : α) (v : β) :
    alookup (ainsert l k v) k' = if k = k' then some v else alookup l k' := by
  induction l with
  | nil => simp [ainsert, alookup]
  | cons p rest ih =>
    obtain ⟨k0, v0⟩ := p
    by_cases h0 : k0 = k
    · subst h0
      by_cases h1 : k0 = k'
      · subst h1; simp [ainsert, alookup]
      · simp [ainsert, alookup, h1]
    · by_cases h1 : k0 = k'
      · subst h1
        simp [ainsert, alookup, h0, Ne.symm h0]
      · simp [ainsert, alookup, h0, h1, ih]

theorem alookup_aerase_of_nodup (l : List (α × β)) (k k' : α) (h : nodupKeys l) :
    alookup (aerase l k) k' = if k = k' then none else alookup l k' := by
  induction l with
  | nil => simp [aerase, alookup]
  | cons p rest ih =>
    obtain ⟨k0, v0⟩ := p
    have hmapcons : (k0 :: rest.map Prod.fst).Nodup := by
      simpa only [nodupKeys, List.map_cons] using h
    have hcons := List.nodup_cons.mp hmapcons
    have hrest : nodupKeys rest := hcons.2
    have hnotin : k0 ∉ rest.map Prod.fst := hcons.1
    by_cases h0 : k0 = k
    · subst h0
      by_cases h1 : k0 = k'
      · subst h1
        simp [aerase, alookup_eq_none_of_not_mem rest k0 hnotin]
      · simp [aerase, alookup, h1]
    · by_cases h1 : k0 = k'
      · subst h1
        simp [aerase, alookup, h0, Ne.symm h0]
      · simp [aerase, alookup, h0, h1, ih hrest]

theorem nodupKeys_ainsert (l : List (α × β)) (k : α) (v : β) (h : nodupKeys l) :
    nodupKeys (ainsert l k v) := by
  induction l with
  | nil => simp [ainsert, nodupKeys]
  | cons p rest ih =>
    obtain ⟨k0, v0⟩ := p
    have hmapcons : (k0 :: rest.map Prod.fst).Nodup := by
      simpa only [nodupKeys, List.map_cons] using h
    have hcons := List.nodup_cons.mp hmapcons
    by_cases h0 : k0 = k
    · subst h0
      have : (k0 ∉ rest.map Prod.fst) ∧ (rest.map Prod.fst).Nodup := hcons
      simpa [ainsert, nodupKeys] using this
    · have hrest := ih hcons.2
      have hmem : k0 ∉ (ainsert rest k v).map Prod.fst := by
        intro hm
        rcases (mem_keys_ainsert rest k v k0).mp hm with h1 | h1
        · exact h0 h1
        · exact hcons.1 h1
      have hgoal : ((k0, v0) :: ainsert rest k v).map Prod.fst |>.Nodup := by
        simpa [nodupKeys] using And.intro hmem hrest
      simpa [ainsert, h0, nodupKeys] using hgoal

theorem nodupKeys_aerase (l : List (α × β)) (k : α) (h : nodupKeys l) :
    nodupKeys (aerase l k) := by
  induction l with
  | nil => simp [aerase, nodupKeys]
  | cons p rest ih =>
    obtain ⟨k0, v0⟩ := p
    have hmapcons : (k0 :: rest.map Prod.fst).Nodup := by
      simpa only [nodupKeys, List.map_cons] using h
    have hcons := List.nodup_cons.mp hmapcons
    by_cases h0 : k0 = k
    · simpa [aerase, h0, nodupKeys] using hcons.2
    · have hrest := ih hcons.2
      have hmem : k0 ∉ (aerase rest k).map Prod.fst := by
        intro hm; exact hcons.1 (mem_keys_aerase rest k k0 hm)
      have hgoal : ((k0, v0) :: aerase rest k).map Prod.fst |>.Nodup := by
        simpa [nodupKeys] using And.intro hmem hrest
      simpa [aerase, h0, nodupKeys] using hgoal

end Alist

/-! ## Byte/text helpers

`String::from_utf8` (used for `Error` and `ContinueWithError` payloads) is
modeled by a standard UTF-8 decoder over byte lists. -/

/-- ASCII bytes of a string (all inputs used concretely are ASCII). -/
def asciiBytes (s : String) : List UInt8 :=
  s.data.map (fun c => UInt8.ofNat c.toNat)

/-- Is `b` a UTF-8 continuation byte (`0x80..0xBF`)? -/
def isContByte (b : UInt8) : Bool := 0x80 ≤ b && b < 0xC0

/-- Standard UTF-8 decoding, the model of `String::from_utf8`:
`none` exactly on invalid UTF-8 (stray continuation bytes, overlong forms,
surrogates, out-of-range code points, truncated sequences). -/
def utf8Decode : List UInt8 → Option (List Char)
  | [] => some []
  | b :: rest =>
    if b < 0x80 then
      (utf8Decode rest).map (fun cs => Char.ofNat b.toNat :: cs)
    else if b < 0xC2 then
      none
    else if b < 0xE0 then
      match rest with
      | b2 :: rest2 =>
        if isContByte b2 then
          let cp := (b.toNat - 0xC0) * 0x40 + (b2.toNat - 0x80)
          (utf8Decode rest2).map (fun cs => Char.ofNat cp :: cs)
        else none
      | _ => none
    else if b < 0xF0 then
      match rest with
      | b2 :: b3 :: rest3 =>
        if isContByte b2 && isContByte b3 then
          let cp := (b.toNat - 0xE0) * 0x1000 + (b2.toNat - 0x80) * 0x40 + (b3.toNat - 0x80)
          if cp < 0x800 || (0xD800 ≤ cp && cp ≤ 0xDFFF) then none
          else (utf8Decode rest3).map (fun cs => Char.ofNat cp :: cs)
        else none
      | _ => none
    else if b < 0xF5 then
      match rest with
      | b2 :: b3 :: b4 :: rest4 =>
        if isContByte b2 && isContByte b3 && isContByte b4 then
          let cp := (b.toNat - 0xF0) * 0x40000 + (b2.toNat - 0x80) * 0x1000 +
            (b3.toNat - 0x80) * 0x40 + (b4.toNat - 0x80)
          if cp < 0x10000 || 0x10FFFF < cp then none
          else (utf8Decode rest4).map (fun cs => Char.ofNat cp :: cs)
        else none
      | _ => none
    else none

/-- String-valued form of the `String::from_utf8` model. -/
def fromUtf8 (data : List UInt8) : Option String :=
  (utf8Decode data).map (fun cs => String.mk cs)

/-! ## Error model (`src/rust/src/core/error.rs`)

Only the variants the WebSocket layer produces are modeled.  Formatted
payloads of `Custom` are reduced to a fixed message; the claims never
inspect the text. -/

/-- The structured error body the server sends on failure
(`ResponseError` in `core/error.rs`): an HTTP status plus a message. -/
structure ResponseError where
  status : Nat
  error : String
  deriving DecidableEq, Repr

/-- The crate error enum (`Error` in `core/error.rs`), restricted to the
variants reachable from the WebSocket session code. `SerdeJson` stands for
the converted `serde_json::Error`. -/
inductive Error
  | UnexpectedClose
  | UnexpectedMessage
  | UnexpectedMessageFormat
  | BackendShutDown
  | ErrorMsg (msg : String)
  | ErrorResponse (err : ResponseError)
  | ConnectionClosed
  | SerdeJson (msg : String)
  | Custom (msg : String)
  deriving DecidableEq, Repr

/-! ## Model of `serde_json::from_slice::<ResponseError>`

A recursive-descent parser for the structured error object
`\x7b"status": <u16>, "error": "<text>"\x7d` (fields in either order,
whitespace tolerated, no escape sequences in the message).  This is a
model of the external serde_json deserializer, used only on payloads whose
first byte is the opening curly brace; it agrees with serde_json on every
concrete input appearing in the theorems below. -/

/-- Skip JSON whitespace (space, tab, LF, CR). -/
def skipWs : List UInt8 → List UInt8
  | [] => []
  | b :: rest =>
    if b = 0x20 || b = 0x09 || b = 0x0A || b = 0x0D then skipWs rest
    else b :: rest

/-- Parse a decimal natural number, returning it and the remaining input. -/
def parseNatBytes : List UInt8 → Option (Nat × List UInt8)
  | bs =>
    let digits := bs.takeWhile (fun b => 0x30 ≤ b && b ≤ 0x39)
    if digits.isEmpty then none
    else some (digits.foldl (fun acc b => acc * 10 + (b.toNat - 0x30)) 0,
      bs.dropWhile (fun b => 0x30 ≤ b && b ≤ 0x39))

/-- Parse a JSON string literal without escapes: a double quote, then bytes
up to the closing double quote (which must be ASCII-clean for this model). -/
def parseStringBytes : List UInt8 → Option (String × List UInt8)
  | 0x22 :: rest =>
    let content := rest.takeWhile (fun b => b ≠ 0x22 && b ≠ 0x5C)
    match rest.dropWhile (fun b => b ≠ 0x22 && b ≠ 0x5C) with
    | 0x22 :: rest2 =>
      match utf8Decode content with
      | some cs => some (String.mk cs, rest2)
      | none => none
    | _ => none
  | _ => none

/-- One field of the error object: either `"status": <nat>` or
`"error": "<text>"`. -/
def parseFieldBytes (bs : List UInt8) : Option ((Option Nat × Option String) × List UInt8) :=
  match parseStringBytes (skipWs bs) with
  | some (name, rest) =>
    match skipWs rest with
    | 0x3A :: rest2 =>
      -- colon, then the value determined by the field name
      if name = "status" then
        match parseNatBytes (skipWs rest2) with
        | some (n, rest3) => some ((some n, none), rest3)
        | none => none
      else if name = "error" then
        match parseStringBytes (skipWs rest2) with
        | some (s, rest3) => some ((none, some s), rest3)
        | none => none
      else none
    | _ => none
  | none => none

/-- Concrete stand-in for `serde_json::from_slice::<ResponseError>`: the
object must open with a curly brace, contain a `status` number below
`2^16` and an `error` string (either order), and close; both fields are
required.  It is deliberately simpler than the derived serde deserializer
(no unknown-field skipping, no string escapes, leading zeros accepted):
the session theorems quantify over the parse function instead of relying
on this one, and this stand-in appears only in closed statements at
concrete inputs on which it agrees with the serde deserializer (inputs
with exactly the two escape-free fields, and inputs whose required fields
are missing, which both reject). -/
def parseResponseError (bs : List UInt8) : Option ResponseError :=
  match skipWs bs with
  | 0x7B :: rest =>
    match parseFieldBytes rest with
    | some ((st1, er1), rest1) =>
      match skipWs rest1 with
      | 0x2C :: rest2 =>
        -- comma, second field
        match parseFieldBytes rest2 with
        | some ((st2, er2), rest3) =>
          match skipWs rest3 with
          | 0x7D :: rest4 =>
            if (skipWs rest4).isEmpty then
              match (st1 <|> st2), (er1 <|> er2) with
              | some status, some error =>
                if status < 65536 then some ⟨status, error⟩ else none
              | _, _ => none
            else none
          | _ => none
        | none => none
      | _ => none
    | none => none
  | _ => none

/-! ## Session data model (`src/rust/src/providers/ws.rs`) -/

/-- Logical id (`uuid::Uuid`, a 128-bit value), modeled as a natural. -/
abbrev Uuid := Nat

/-- Output format selector (`Format` in `core/types/format.rs`). -/
inductive Format
  | Json
  | JsonStream
  | Arrow
  | ArrowStream
  deriving DecidableEq, Repr

/-- The requested action (`Operation` in `providers/ws.rs`).  The session
never inspects an operation: it is serialized on submission, retained, and
re-serialized verbatim on reconnect.  Its two dozen variants and their
filter-parameter structs are therefore condensed into an opaque tag that
the embedding carries around unchanged. -/
structure Operation where
  tag : String
  deriving DecidableEq, Repr

/-- The framed request envelope (`Request` in `providers/ws.rs`):
`id`, flattened operation, `format`, `deltas`, resume `cursor`. -/
structure Request where
  id : Uuid
  operation : Operation
  format : Format
  deltas : Bool
  cursor : String
  deriving DecidableEq, Repr

/-- Message kind carried in a frame header (`Kind` in `providers/ws.rs`). -/
inductive Kind
  | Start
  | Continue
  | ContinueWithError
  | End
  | Error
  | Subscription
  deriving DecidableEq, Repr

/-- Newtype around the logical id in a header (`MsgId(pub Uuid)`). -/
structure MsgId where
  fst : Uuid
  deriving DecidableEq, Repr

/-- Decoded frame header (`Header` in `providers/ws.rs`): kind, logical id,
informational counter and epoch, optional resume cursor. -/
structure Header where
  kind : Kind
  id : MsgId
  counter : Nat
  epoch : Option Nat
  cursor : Option String
  deriving DecidableEq, Repr

/-- One message the worker can push into a subscription channel:
payload bytes or an error (`Result<Vec<u8>>` in the source). -/
abbrev WsResult := Except Error (List UInt8)

instance {ε α : Type} [DecidableEq ε] [DecidableEq α] : DecidableEq (Except ε α) :=
  fun a b =>
  match a, b with
  | .ok x, .ok y =>
    if h : x = y then .isTrue (by rw [h]) else .isFalse (by simp [h])
  | .ok _, .error _ => .isFalse (by simp)
  | .error _, .ok _ => .isFalse (by simp)
  | .error e, .error f =>
    if h : e = f then .isTrue (by rw [h]) else .isFalse (by simp [h])

/-- The sending half of a subscription's unbounded channel
(`mpsc::UnboundedSender<Result<Vec<u8>>>`).  `connected` records whether
the consumer still holds the receiving half; `received` is the queue of
messages successfully sent so far.  An unbounded-channel send fails exactly
when the receiver has been dropped (`is_disconnected`). -/
structure Sink where
  connected : Bool
  received : List WsResult
  deriving DecidableEq, Repr

/-- Mutable state of the background worker (`BackgroundWorker` in
`providers/ws.rs`), minus the physical socket and its connect request,
which carry no registry data. -/
structure WorkerState where
  subscriptions : List (Uuid × Sink)
  subscription_requests : List (Uuid × Request)
  subscription_cursor : List (Uuid × String)
  deriving DecidableEq, Repr

/-! ## Routing and frame handling (`BackgroundWorker::handle_binary`) -/

/-- Delivery of a decoded chunk or error to the sink registered for `id`,
modeling the tail of `handle_binary`: look the id up among the
subscriptions; on a successful `unbounded_send` keep the entry; when the
send fails because the consumer dropped the receiver, remove the entry and
report `Error::Custom` (the formatted text of the send error is reduced to
a fixed message).  Ids with no entry are ignored. -/
def route (st : WorkerState) (id : Uuid) (msg : WsResult) :
    WorkerState × Except Error Unit :=
  match alookup st.subscriptions id with
  | none => (st, .ok ())
  | some sink =>
    if sink.connected then
      ({ st with subscriptions :=
          ainsert st.subscriptions id { sink with received := sink.received ++ [msg] } },
        .ok ())
    else
      ({ st with subscriptions := aerase st.subscriptions id },
        .error (.Custom "failed to send message"))

/-- Payload interpretation of a `ContinueWithError` frame: when the first
byte is an opening curly brace, the payload must parse as the structured
`ResponseError`; otherwise it is forwarded as UTF-8 text; failing both, the
malformed-format error is produced.  The structured parse
(`serde_json::from_slice::<ResponseError>`, an external library call) is a
parameter, exactly like the header parse of the line-variant decoder; the
session theorems hold for every parse function, and `parseResponseError`
instantiates it at concrete inputs. -/
def continueWithErrorPayload (parseRespErr : List UInt8 → Option ResponseError)
    (data : List UInt8) : Error :=
  match data.head? with
  | some b =>
    if b = 0x7B then
      match parseRespErr data with
      | some err => .ErrorResponse err
      | none => .UnexpectedMessageFormat
    else
      match fromUtf8 data with
      | some s => .ErrorMsg s
      | none => .UnexpectedMessageFormat
  | none =>
    match fromUtf8 data with
    | some s => .ErrorMsg s
    | none => .UnexpectedMessageFormat

/-- Frame dispatch of `handle_binary`, after `Header::try_from_data`
succeeded: `Start` is a no-op; `Continue` records a present cursor and
routes the payload; `ContinueWithError` routes the interpreted error;
`End` removes (and thereby closes) the subscription; `Error` routes the
payload as UTF-8 text; the catch-all arm routes the malformed-format
error. -/
def handleFrame (parseRespErr : List UInt8 → Option ResponseError)
    (st : WorkerState) (header : Header) (data : List UInt8) :
    WorkerState × Except Error Unit :=
  let id := header.id.fst
  match header.kind with
  | .Start => (st, .ok ())
  | .Continue =>
    let st1 :=
      match header.cursor with
      | some cursor =>
        { st with subscription_cursor := ainsert st.subscription_cursor id cursor }
      | none => st
    route st1 id (.ok data)
  | .ContinueWithError =>
    route st id (.error (continueWithErrorPayload parseRespErr data))
  | .End =>
    ({ st with subscriptions := aerase st.subscriptions id }, .ok ())
  | .Error =>
    route st id (.error (match fromUtf8 data with
      | some s => .ErrorMsg s
      | none => .UnexpectedMessageFormat))
  | .Subscription =>
    route st id (.error .UnexpectedMessageFormat)

/-! ## Operation registration (`BackgroundWorker::operate`) -/

/-- One submission from a client handle
(`OperationMsg = (Uuid, Operation, Format, bool, UnboundedSender<_>)`). -/
structure OperationMsg where
  id : Uuid
  operation : Operation
  format : Format
  deltas : Bool
  sink : Sink
  deriving Repr

/-- Observable outcome of `operate`: the successor state, the returned
`Result`, whether the duplicate-id warning was logged, and the payloads
handed to `ws.send`. -/
structure OperateOut where
  state : WorkerState
  result : Except Error Unit
  warned : Bool
  sent : List (List UInt8)
  deriving Repr

/-- Registration of a submitted operation (`BackgroundWorker::operate`).
`enc` models `serde_json::to_vec` (its error branch is kept although
serialization of `Request` cannot fail); `sendOk` models whether the
socket write succeeds.  The request envelope reuses a previously observed
cursor for the id, defaulting to the empty string; the request is retained
for replay; the sink is registered, warning when an entry already existed;
a failed socket write removes and closes the just-registered sink but is
not fatal (`Ok(())` is still returned). -/
def operate (enc : Request → Option (List UInt8)) (sendOk : Bool)
    (st : WorkerState) (op : OperationMsg) : OperateOut :=
  let request : Request :=
    { id := op.id
      operation := op.operation
      format := op.format
      deltas := op.deltas
      cursor := (alookup st.subscription_cursor op.id).getD "" }
  match enc request with
  | none => { state := st, result := .error (.SerdeJson "serialize"), warned := false, sent := [] }
  | some payload =>
    let st1 := { st with
      subscription_requests := ainsert st.subscription_requests op.id request }
    let warned := (alookup st1.subscriptions op.id).isSome
    let st2 := { st1 with subscriptions := ainsert st1.subscriptions op.id op.sink }
    if sendOk then
      { state := st2, result := .ok (), warned := warned, sent := [payload] }
    else
      { state := { st2 with subscriptions := aerase st2.subscriptions op.id },
        result := .ok (), warned := warned, sent := [payload] }

/-! ## Reconnect replay (`BackgroundWorker::attempt_reconnect`)

Only the success path is modeled (the claim conditions on reconnection
succeeding); the retry loop around it repeats the same body up to 100
times with a fixed delay and does not touch the registry either. -/

/-- Resend traffic after a successful reconnect: for every retained
request, override its cursor with the most recently observed cursor for
that id, falling back to the cursor stored in the request at subscribe
time; serialize (skipping the entry when `enc` fails, as the source logs
and continues); send, logging but otherwise ignoring a send failure.
Returns the resent requests in iteration order, the ids whose send failed,
and the (unchanged) worker state. -/
def attempt_reconnect_success (enc : Request → Option (List UInt8))
    (sendOk : Nat → Bool) (st : WorkerState) :
    List Request × List Uuid × WorkerState :=
  let resends := st.subscription_requests.filterMap
    (fun p =>
      let req := { p.2 with
        cursor := (alookup st.subscription_cursor p.1).getD p.2.cursor }
      (enc req).map (fun _ => req))
  let failed := (List.range resends.length).filterMap
    (fun i => if sendOk i then none else (resends.get? i).map (·.id))
  (resends, failed, st)

/-! ## Inbound frame decoding (`Header::try_from_data`, line variant)

The current generation sends the header as JSON on the first line of the
binary frame, followed by the payload.  The split at the first newline is
modeled structurally; the JSON header parse (an external serde_json call)
is a parameter of the decoder. -/

/-- Split at the first newline byte (`splitn_mut(2, b'\n')`): the chunk
before it and the remainder.  `none` when no newline byte occurs, which is
the case in which the second `split.next()` of the source returns `None`. -/
def splitFirstNewline : List UInt8 → Option (List UInt8 × List UInt8)
  | [] => none
  | b :: rest =>
    if b = 0x0A then some ([], rest)
    else
      match splitFirstNewline rest with
      | some (hd, tl) => some (b :: hd, tl)
      | none => none

/-- Line-variant `Header::try_from_data`: split the buffer at the first
newline; the first chunk must parse (via `parseHeader`, the serde_json
model parameter) as a `Header`; the remainder is the payload, returned
unchanged.  A missing newline is the malformed-format error; a failed
header parse surfaces as the converted serde error. -/
def Header.try_from_data (parseHeader : List UInt8 → Option Header)
    (data : List UInt8) : Except Error (Header × List UInt8) :=
  match splitFirstNewline data with
  | none => .error .UnexpectedMessageFormat
  | some (headerBytes, payload) =>
    match parseHeader headerBytes with
    | none => .error (.SerdeJson "header")
    | some header => .ok (header, payload)

/-- Full `handle_binary`: decode, then dispatch on the header. -/
def handleBinary (parseHeader : List UInt8 → Option Header)
    (parseRespErr : List UInt8 → Option ResponseError)
    (st : WorkerState) (data : List UInt8) : WorkerState × Except Error Unit :=
  match Header.try_from_data parseHeader data with
  | .error e => (st, .error e)
  | .ok (header, payload) => handleFrame parseRespErr st header payload

/-! ## Client handle (`WsProvider::request`) -/

/-- Client-facing handle state: whether the worker side of the operations
queue is still alive (`UnboundedSender::is_closed`). -/
structure WsProvider where
  operationsClosed : Bool
  deriving DecidableEq, Repr

/-- Shallow model of `WsProvider::request`: submitting on a closed
operations queue fails immediately with `BackendShutDown`; otherwise the
caller receives the subscription stream, which passes error items through
and yields a successful chunk exactly when its payload is non-empty
(`filter_map` over the channel).  The stream is modeled by the list of
items the worker pushed into the channel. -/
def WsProvider.request (p : WsProvider) (operation : Operation) (format : Format)
    (deltas : Bool) (delivered : List WsResult) : Except Error (List WsResult) :=
  if p.operationsClosed then
    .error .BackendShutDown
  else
    .ok (delivered.filterMap (fun item =>
      match item with
      | .ok data => if data.isEmpty then none else some (.ok data)
      | .error e => some (.error e)))

/-! ## Binary-trailer frame decoding (`src/src/providers/ws.rs`)

The earlier client generation appends a fixed 21-byte header block after
the payload: one bit-flags byte, a 16-byte little-endian id, a 4-byte
big-endian counter.  Decoding is modeled with every slice access bounds
checked, so that panic freedom is a provable statement rather than an
assumption. -/

namespace Gen1

/-- Bit-flags byte of the trailer (`MsgMarker`, a `bitflags` type with
`START = 0x01`, `CONTINUE = 0x02`, `END = 0x04`, `SUBSCRIPTION = 0x40`,
`ERROR = 0x80`). -/
structure MsgMarker where
  bits : UInt8
  deriving DecidableEq, Repr

/-- Construction from a raw byte (`MsgMarker::from_bits`): fails when any
bit outside the five defined flags is set, that is when one of
`0x08 / 0x10 / 0x20` is present. -/
def MsgMarker.from_bits (b : UInt8) : Option MsgMarker :=
  if b &&& 0x38 = 0 then some ⟨b⟩ else none

/-- Flag test (`bitflags`' `contains`). -/
def MsgMarker.containsFlag (m : MsgMarker) (flag : UInt8) : Bool :=
  m.bits &&& flag = flag

/-- Decoded binary trailer (`Header` in `src/src/providers/ws.rs`). -/
structure Header where
  marker : MsgMarker
  id : Uuid
  counter : Nat
  deriving DecidableEq, Repr

/-- Little-endian 16-byte id (`Uuid::from_bytes_le`). -/
def uuidFromBytesLe (bs : List UInt8) : Uuid :=
  bs.foldr (fun b acc => b.toNat + 256 * acc) 0

/-- Big-endian 4-byte counter (`u32::from_be_bytes`). -/
def u32FromBeBytes (bs : List UInt8) : Nat :=
  bs.foldl (fun acc b => acc * 256 + b.toNat) 0

/-- Possible outcomes of the binary decoder, with a dedicated constructor
for the panics the unchecked source operations could take (out-of-bounds
slice indexing, `unwrap` of a failed conversion). -/
inductive DecodeOutcome (α : Type)
  | ok (value : α)
  | err (e : Error)
  | panicked
  deriving Repr

/-- Binary-variant `Header::try_from_data`: buffers shorter than the
21-byte trailer are malformed; the trailer is the final 21 bytes; its
first byte must be a valid marker; bytes 1..17 are the id, bytes 17..21
the counter; the payload is the buffer truncated before the trailer,
returned unchanged.  Every unchecked access of the source is modeled by a
`panicked` outcome when its precondition fails. -/
def Header.try_from_data (data : List UInt8) : DecodeOutcome (Header × List UInt8) :=
  if data.length < 21 then .err .UnexpectedMessageFormat
  else
    match (data.drop (data.length - 21)).head? with
    | none => .panicked
    | some b0 =>
      match MsgMarker.from_bits b0 with
      | none => .err .UnexpectedMessageFormat
      | some marker =>
        if (data.drop (data.length - 21)).length < 17 then .panicked
        else if (((data.drop (data.length - 21)).drop 1).take 16).length ≠ 16 then
          .err .UnexpectedMessageFormat
        else if ((data.drop (data.length - 21)).drop 17).length ≠ 4 then .panicked
        else
          .ok ({ marker := marker
                 id := uuidFromBytesLe (((data.drop (data.length - 21)).drop 1).take 16)
                 counter := u32FromBeBytes ((data.drop (data.length - 21)).drop 17) },
            data.take (data.length - 21))

end Gen1

/-! ## Block-range bounds (`src/rust/src/core/types/query.rs`) -/

/-- One end of a block range (`Bound` in `core/types/query.rs`). -/
inductive Bound
  | Exact (n : Int)
  | Latest
  | FromLatest (n : Nat)
  | Subscribe
  deriving DecidableEq, Repr

/-- Serde output of serializing a bound: either `serialize_i64` or
`serialize_str` is called, so the serialized form is an integer or a
string. -/
inductive SerValue
  | int (n : Int)
  | str (s : String)
  deriving DecidableEq, Repr

/-- Wrap-around of an unbounded integer into the `i64` range, the meaning
of Rust's `as i64` casts and wrapping negation. -/
def i64Wrap (z : Int) : Int := (z + 2 ^ 63) % 2 ^ 64 - 2 ^ 63

/-- Serializer of `Bound` (`impl serde::Serialize for Bound`):
`Exact(n)` serializes as the integer `n`; `FromLatest(n)` as the integer
`-(n as i64)`; `Latest` as the string `latest`; `Subscribe` as the string
`none`. -/
def Bound.serialize : Bound → SerValue
  | .Exact n => .int n
  | .FromLatest n => .int (i64Wrap (-(i64Wrap n)))
  | .Latest => .str "latest"
  | .Subscribe => .str "none"

/-! ## Derived notions used by the statements -/

/-- Worker state evolution over a sequence of decoded inbound frames
processed in receipt order. -/
def processFrames (parseRespErr : List UInt8 → Option ResponseError)
    (st : WorkerState) (frames : List (Header × List UInt8)) : WorkerState :=
  frames.foldl (fun s f => (handleFrame parseRespErr s f.1 f.2).1) st

/-- Cursor carried by the last `Continue` frame for `id` that bears a
cursor, if any. -/
def lastContinueCursor (id : Uuid) : List (Header × List UInt8) → Option String
  | [] => none
  | f :: rest =>
    match lastContinueCursor id rest with
    | some c => some c
    | none =>
      match f.1.kind, f.1.cursor with
      | Kind.Continue, some c => if f.1.id.fst = id then some c else none
      | _, _ => none

/-- Payload of the spec's scenario 2: the structured server error body. -/
def scenarioErrorPayload : List UInt8 :=
  asciiBytes "\x7b\"status\":404,\"error\":\"not found\"\x7d"

/-- A payload that opens with a curly brace and is valid UTF-8 text but is
not the structured server error object. -/
def braceTextPayload : List UInt8 :=
  asciiBytes "\x7b\"a\":1\x7d"

/-! ## Helper lemmas about the worker transitions -/

theorem route_cursor_eq (st : WorkerState) (id : Uuid) (msg : WsResult) :
    (route st id msg).1.subscription_cursor = st.subscription_cursor := by
  unfold route
  cases alookup st.subscriptions id with
  | none => rfl
  | some sink => by_cases h : sink.connected <;> simp [h]

theorem route_requests_eq (st : WorkerState) (id : Uuid) (msg : WsResult) :
    (route st id msg).1.subscription_requests = st.subscription_requests := by
  unfold route
  cases alookup st.subscriptions id with
  | none => rfl
  | some sink => by_cases h : sink.connected <;> simp [h]

theorem handleFrame_cursor_lookup (parse : List UInt8 → Option ResponseError)
    (st : WorkerState) (h : Header) (d : List UInt8) (id : Uuid) :
    alookup (handleFrame parse st h d).1.subscription_cursor id =
      match h.kind, h.cursor with
      | Kind.Continue, some c =>
        if h.id.fst = id then some c else alookup st.subscription_cursor id
      | _, _ => alookup st.subscription_cursor id := by
  cases hk : h.kind with
  | Start => simp [handleFrame, hk]
  | Continue =>
    cases hc : h.cursor with
    | none => simp [handleFrame, hk, hc, route_cursor_eq]
    | some c =>
      simp only [handleFrame, hk, hc, route_cursor_eq]
      simp [alookup_ainsert]
  | ContinueWithError => simp [handleFrame, hk, route_cursor_eq]
  | End => simp [handleFrame, hk]
  | Error => simp [handleFrame, hk, route_cursor_eq]
  | Subscription => simp [handleFrame, hk, route_cursor_eq]

theorem route_preserves_nodup (st : WorkerState) (id : Uuid) (msg : WsResult)
    (h : nodupKeys st.subscriptions) : nodupKeys (route st id msg).1.subscriptions := by
  unfold route
  cases alookup st.subscriptions id with
  | none => exact h
  | some sink =>
    by_cases hc : sink.connected
    · simpa [hc] using nodupKeys_ainsert st.subscriptions id _ h
    · simpa [hc] using nodupKeys_aerase st.subscriptions id h

theorem handleFrame_preserves_nodup (parse : List UInt8 → Option ResponseError)
    (st : WorkerState) (h : Header) (d : List UInt8)
    (hnd : nodupKeys st.subscriptions) :
    nodupKeys (handleFrame parse st h d).1.subscriptions := by
  cases hk : h.kind with
  | Start => simpa [handleFrame, hk] using hnd
  | Continue =>
    cases hc : h.cursor with
    | none => simpa [handleFrame, hk, hc] using route_preserves_nodup st _ _ hnd
    | some c =>
      simp only [handleFrame, hk, hc]
      exact route_preserves_nodup _ _ _ (by simpa using hnd)
  | ContinueWithError =>
    simpa [handleFrame, hk] using route_preserves_nodup st _ _ hnd
  | End =>
    simpa [handleFrame, hk] using nodupKeys_aerase st.subscriptions _ hnd
  | Error =>
    simpa [handleFrame, hk] using route_preserves_nodup st _ _ hnd
  | Subscription =>
    simpa [handleFrame, hk] using route_preserves_nodup st _ _ hnd

/-! ## Claim theorems -/

/-- C2: for every logical id and every sequence of frames processed in
receipt order, the registry's stored cursor afterwards equals the cursor
of the last `Continue` frame for that id that carried a cursor; frames of
other kinds, and `Continue` frames without a cursor, leave the stored
cursor unchanged (the lookup falls back to the prior state). -/
theorem cursor_equals_last_continue_cursor (parse : List UInt8 → Option ResponseError)
    (st : WorkerState)
    (frames : List (Header × List UInt8)) (id : Uuid) :
    alookup (processFrames parse st frames).subscription_cursor id =
      match lastContinueCursor id frames with
      | some c => some c
      | none => alookup st.subscription_cursor id := by
  induction frames generalizing st with
  | nil => simp [processFrames, lastContinueCursor]
  | cons f rest ih =>
    have hstep : processFrames parse st (f :: rest) =
        processFrames parse (handleFrame parse st f.1 f.2).1 rest := by
      simp [processFrames]
    rw [hstep, ih]
    have hcur := handleFrame_cursor_lookup parse st f.1 f.2 id
    cases hlast : lastContinueCursor id rest with
    | some c =>
      simp [lastContinueCursor, hlast]
    | none =>
      simp only [lastContinueCursor, hlast]
      rw [hcur]
      cases hk : f.1.kind <;> cases hc : f.1.cursor <;>
        simp [hk, hc] <;> by_cases hid : f.1.id.fst = id <;> simp [hid]

/-- C3 (counterexample): the claim states that routing a `Continue` frame
to a subscription whose consumer dropped its receiving handle removes the
entry silently and treats the situation as normal, not as an error.  On
the concrete state holding one disconnected subscription, `handle_binary`
does remove the entry, but its result is not `Ok(())`: it returns the
`Error::Custom` send-failure error (which the event loop then logs). -/
theorem route_disconnected_counterexample :
    (handleFrame parseResponseError ⟨[(1, ⟨false, []⟩)], [], []⟩
        ⟨Kind.Continue, ⟨1⟩, 0, none, none⟩ []).2 ≠ Except.ok () ∧
    (handleFrame parseResponseError ⟨[(1, ⟨false, []⟩)], [], []⟩
        ⟨Kind.Continue, ⟨1⟩, 0, none, none⟩ []).2 =
      Except.error (Error.Custom "failed to send message") ∧
    alookup (handleFrame parseResponseError ⟨[(1, ⟨false, []⟩)], [], []⟩
        ⟨Kind.Continue, ⟨1⟩, 0, none, none⟩ []).1.subscriptions 1 = none := by
  decide

/-- C3 (amended): routing a decoded chunk to the sink of a logical id
whose consumer has dropped its receiving handle removes that registry
entry and leaves every other subscription untouched, and the removal is
not fatal to the session; but the routing step itself reports the
`Error::Custom` send-failure error (logged by the event loop) rather than
succeeding silently. -/
theorem route_disconnected_removes_entry (parse : List UInt8 → Option ResponseError)
    (st : WorkerState) (h : Header)
    (d : List UInt8) (sink : Sink)
    (hnd : nodupKeys st.subscriptions)
    (hk : h.kind = Kind.Continue)
    (hs : alookup st.subscriptions h.id.fst = some sink)
    (hdisc : sink.connected = false) :
    alookup (handleFrame parse st h d).1.subscriptions h.id.fst = none ∧
    (∀ id', id' ≠ h.id.fst →
      alookup (handleFrame parse st h d).1.subscriptions id' =
        alookup st.subscriptions id') ∧
    (handleFrame parse st h d).2 =
      Except.error (Error.Custom "failed to send message") := by
  have hsub1 :
      ∀ st1 : WorkerState, st1.subscriptions = st.subscriptions →
        route st1 h.id.fst (Except.ok d) =
          ({ st1 with subscriptions := aerase st1.subscriptions h.id.fst },
            Except.error (Error.Custom "failed to send message")) := by
    intro st1 heq
    unfold route
    rw [heq, hs]
    simp [hdisc]
  have hmain :
      (handleFrame parse st h d).1.subscriptions = aerase st.subscriptions h.id.fst ∧
      (handleFrame parse st h d).2 =
        Except.error (Error.Custom "failed to send message") := by
    cases hc : h.cursor with
    | none =>
      simp only [handleFrame, hk, hc]
      rw [hsub1 st rfl]
      exact ⟨rfl, rfl⟩
    | some c =>
      simp only [handleFrame, hk, hc]
      rw [hsub1 ({ st with
        subscription_cursor := ainsert st.subscription_cursor h.id.fst c }) rfl]
      exact ⟨rfl, rfl⟩
  refine ⟨?_, ?_, hmain.2⟩
  · rw [hmain.1, alookup_aerase_of_nodup _ _ _ hnd]
    simp
  · intro id' hne
    rw [hmain.1, alookup_aerase_of_nodup _ _ _ hnd]
    simp [Ne.symm hne]

/-- C3 (witness): the amended behavior at the concrete one-subscription
state with a disconnected sink. -/
theorem route_disconnected_removes_entry_witness :
    alookup (handleFrame parseResponseError ⟨[(1, ⟨false, []⟩)], [], []⟩
        ⟨Kind.Continue, ⟨1⟩, 0, none, none⟩ [0x61]).1.subscriptions 1 = none :=
  (route_disconnected_removes_entry parseResponseError ⟨[(1, ⟨false, []⟩)], [], []⟩
    ⟨Kind.Continue, ⟨1⟩, 0, none, none⟩ [0x61] ⟨false, []⟩
    (by decide) rfl (by decide) rfl).1

/-- C4 (counterexample): the claim states that a `ContinueWithError`
payload that does not parse as the structured server error object but is
valid text is forwarded as a generic error-message value.  The concrete
payload opening with a curly brace that is valid UTF-8 text but not a
structured error object is instead routed as the malformed-format error,
not as any `Error::ErrorMsg` value. -/
theorem continue_with_error_counterexample :
    parseResponseError braceTextPayload = none ∧
    (fromUtf8 braceTextPayload).isSome = true ∧
    handleFrame parseResponseError ⟨[(1, ⟨true, []⟩)], [], []⟩
        ⟨Kind.ContinueWithError, ⟨1⟩, 0, none, none⟩ braceTextPayload =
      (⟨[(1, ⟨true, [Except.error Error.UnexpectedMessageFormat]⟩)], [], []⟩,
        Except.ok ()) := by
  decide

/-- C4 (amended): for every structured-error parse function (abstracting
`serde_json::from_slice::<ResponseError>`): a `ContinueWithError` payload
whose first byte is the opening curly brace is handed to that parse: on
success the subscription's sink receives the typed server-error value with
that status and message; on parse failure the sink receives the
malformed-format error even when the payload is valid text.  A payload not
opening with a curly brace is never parsed: the sink receives the generic
error-message value when it is valid UTF-8, and the malformed-format error
otherwise.  The scenario-2 payload parses to status 404 with message
`not found`. -/
theorem continue_with_error_delivery (parse : List UInt8 → Option ResponseError)
    (st : WorkerState) (h : Header)
    (data : List UInt8) (sink : Sink)
    (hk : h.kind = Kind.ContinueWithError)
    (hs : alookup st.subscriptions h.id.fst = some sink)
    (hconn : sink.connected = true) :
    (∀ err, data.head? = some 0x7B → parse data = some err →
      handleFrame parse st h data =
        (WorkerState.mk
          (ainsert st.subscriptions h.id.fst
            (Sink.mk sink.connected
              (sink.received ++ [Except.error (Error.ErrorResponse err)])))
          st.subscription_requests st.subscription_cursor,
          Except.ok ())) ∧
    (data.head? = some 0x7B → parse data = none →
      handleFrame parse st h data =
        (WorkerState.mk
          (ainsert st.subscriptions h.id.fst
            (Sink.mk sink.connected
              (sink.received ++ [Except.error Error.UnexpectedMessageFormat])))
          st.subscription_requests st.subscription_cursor,
          Except.ok ())) ∧
    (∀ s, data.head? ≠ some 0x7B → fromUtf8 data = some s →
      handleFrame parse st h data =
        (WorkerState.mk
          (ainsert st.subscriptions h.id.fst
            (Sink.mk sink.connected
              (sink.received ++ [Except.error (Error.ErrorMsg s)])))
          st.subscription_requests st.subscription_cursor,
          Except.ok ())) ∧
    (data.head? ≠ some 0x7B → fromUtf8 data = none →
      handleFrame parse st h data =
        (WorkerState.mk
          (ainsert st.subscriptions h.id.fst
            (Sink.mk sink.connected
              (sink.received ++ [Except.error Error.UnexpectedMessageFormat])))
          st.subscription_requests st.subscription_cursor,
          Except.ok ())) ∧
    parseResponseError scenarioErrorPayload = some ⟨404, "not found"⟩ := by
  have hroute : ∀ e : Error,
      route st h.id.fst (Except.error e) =
        (WorkerState.mk
          (ainsert st.subscriptions h.id.fst
            (Sink.mk sink.connected (sink.received ++ [Except.error e])))
          st.subscription_requests st.subscription_cursor,
          Except.ok ()) := by
    intro e
    unfold route
    rw [hs]
    simp [hconn]
  have hutf8 : ∀ e : Error, data.head? ≠ some 0x7B →
      (match fromUtf8 data with
        | some s => Error.ErrorMsg s
        | none => Error.UnexpectedMessageFormat) = e →
      handleFrame parse st h data =
        (WorkerState.mk
          (ainsert st.subscriptions h.id.fst
            (Sink.mk sink.connected (sink.received ++ [Except.error e])))
          st.subscription_requests st.subscription_cursor,
          Except.ok ()) := by
    intro e hhead hmsg
    simp only [handleFrame, hk]
    rw [show continueWithErrorPayload parse data = e by
      unfold continueWithErrorPayload
      cases hcase : data.head? with
      | none => rw [← hmsg]
      | some b =>
        have hb : ¬ b = 0x7B := by
          intro hEq
          exact hhead (by rw [hcase, hEq])
        rw [← hmsg]
        simp [hb]]
    exact hroute e
  refine ⟨?_, ?_, ?_, ?_, by decide⟩
  · intro err hhead hparse
    simp only [handleFrame, hk]
    rw [show continueWithErrorPayload parse data = Error.ErrorResponse err by
      unfold continueWithErrorPayload
      rw [hhead]
      simp [hparse]]
    exact hroute _
  · intro hhead hparse
    simp only [handleFrame, hk]
    rw [show continueWithErrorPayload parse data = Error.UnexpectedMessageFormat by
      unfold continueWithErrorPayload
      rw [hhead]
      simp [hparse]]
    exact hroute _
  · intro s hhead hdec
    exact hutf8 (Error.ErrorMsg s) hhead (by rw [hdec])
  · intro hhead hdec
    exact hutf8 Error.UnexpectedMessageFormat hhead (by rw [hdec])

/-- C4 (witness): the amended delivery at the concrete one-subscription
state, with the parse instantiated at `parseResponseError` (which agrees
with the serde deserializer on these inputs): the scenario-2 payload
delivers the typed `ResponseError` with status 404, and a non-brace ASCII
payload delivers the generic error-message value. -/
theorem continue_with_error_delivery_witness :
    handleFrame parseResponseError ⟨[(1, ⟨true, []⟩)], [], []⟩
        ⟨Kind.ContinueWithError, ⟨1⟩, 0, none, none⟩ scenarioErrorPayload =
      (⟨[(1, ⟨true, [Except.error (Error.ErrorResponse ⟨404, "not found"⟩)]⟩)], [], []⟩,
        Except.ok ()) ∧
    handleFrame parseResponseError ⟨[(1, ⟨true, []⟩)], [], []⟩
        ⟨Kind.ContinueWithError, ⟨1⟩, 0, none, none⟩ (asciiBytes "boom") =
      (⟨[(1, ⟨true, [Except.error (Error.ErrorMsg "boom")]⟩)], [], []⟩,
        Except.ok ()) := by
  constructor
  · have happ := (continue_with_error_delivery parseResponseError
      ⟨[(1, ⟨true, []⟩)], [], []⟩
      ⟨Kind.ContinueWithError, ⟨1⟩, 0, none, none⟩ scenarioErrorPayload ⟨true, []⟩
      rfl rfl rfl).1 ⟨404, "not found"⟩ (by decide) (by decide)
    rw [happ]
    decide
  · have happ := (continue_with_error_delivery parseResponseError
      ⟨[(1, ⟨true, []⟩)], [], []⟩
      ⟨Kind.ContinueWithError, ⟨1⟩, 0, none, none⟩ (asciiBytes "boom") ⟨true, []⟩
      rfl rfl rfl).2.2.1 "boom" (by decide) (by decide)
    rw [happ]
    decide

/-- C5: each logical id maps to at most one live subscription entry
(key-distinctness of the registry is preserved by every transition), and
registering an operation under an id that is already registered logs the
duplicate warning, replaces the previous entry with the new sink, leaves
every other subscription untouched, and is not fatal (the session's
`operate` still returns `Ok(())`). -/
theorem duplicate_register_replaces (enc : Request → Option (List UInt8))
    (st : WorkerState) (op : OperationMsg) (payload : List UInt8)
    (hnd : nodupKeys st.subscriptions)
    (henc : enc (Request.mk op.id op.operation op.format op.deltas
      ((alookup st.subscription_cursor op.id).getD "")) = some payload)
    (hdup : (alookup st.subscriptions op.id).isSome = true) :
    (operate enc true st op).warned = true ∧
    (operate enc true st op).result = Except.ok () ∧
    alookup (operate enc true st op).state.subscriptions op.id = some op.sink ∧
    (∀ id', id' ≠ op.id →
      alookup (operate enc true st op).state.subscriptions id' =
        alookup st.subscriptions id') ∧
    nodupKeys (operate enc true st op).state.subscriptions ∧
    (∀ (parse : List UInt8 → Option ResponseError) st' h d,
      nodupKeys st'.subscriptions →
      nodupKeys (handleFrame parse st' h d).1.subscriptions) := by
  have hout : operate enc true st op =
      { state := WorkerState.mk
          (ainsert st.subscriptions op.id op.sink)
          (ainsert st.subscription_requests op.id
            (Request.mk op.id op.operation op.format op.deltas
              ((alookup st.subscription_cursor op.id).getD "")))
          st.subscription_cursor
        result := Except.ok ()
        warned := (alookup st.subscriptions op.id).isSome
        sent := [payload] } := by
    simp [operate, henc]
  rw [hout]
  refine ⟨hdup, rfl, ?_, ?_, ?_, ?_⟩
  · simp [alookup_ainsert]
  · intro id' hne
    simp [alookup_ainsert, Ne.symm hne]
  · exact nodupKeys_ainsert _ _ _ hnd
  · intro parse st' h d hnd'
    exact handleFrame_preserves_nodup parse st' h d hnd'

/-- C5 (witness): registering id 1 a second time on a registry already
holding id 1 warns and succeeds. -/
theorem duplicate_register_replaces_witness :
    (operate (fun _ => some []) true
      (WorkerState.mk [(1, Sink.mk true [])] [] [])
      (OperationMsg.mk 1 (Operation.mk "getStatus") Format.JsonStream false
        (Sink.mk true []))).warned = true :=
  (duplicate_register_replaces (fun _ => some [])
    (WorkerState.mk [(1, Sink.mk true [])] [] [])
    (OperationMsg.mk 1 (Operation.mk "getStatus") Format.JsonStream false
      (Sink.mk true []))
    [] (by decide) rfl (by decide)).1

theorem filter_resends_of_alookup (cursorMap : List (Uuid × String))
    (enc : Request → Option (List UInt8))
    (l : List (Uuid × Request)) (id : Uuid)
    (henc : ∀ r, (enc r).isSome = true)
    (hnd : nodupKeys l)
    (hids : ∀ p ∈ l, (p.2).id = p.1) :
    ((l.filterMap (fun p =>
        let req := { p.2 with cursor := (alookup cursorMap p.1).getD p.2.cursor }
        (enc req).map (fun _ => req))).filter (fun r => r.id = id)) =
      match alookup l id with
      | some req => [{ req with cursor := (alookup cursorMap id).getD req.cursor }]
      | none => [] := by
  induction l with
  | nil => simp [alookup]
  | cons p rest ih =>
    obtain ⟨k, req⟩ := p
    have hk : req.id = k := hids (k, req) (by simp)
    have hmapcons : (k :: rest.map Prod.fst).Nodup := by
      simpa only [nodupKeys, List.map_cons] using hnd
    have hcons := List.nodup_cons.mp hmapcons
    have hids' : ∀ q ∈ rest, (q.2).id = q.1 := fun q hq => hids q (by simp [hq])
    obtain ⟨v, hv⟩ := Option.isSome_iff_exists.mp
      (henc { req with cursor := (alookup cursorMap k).getD req.cursor })
    by_cases hkid : k = id
    · subst hkid
      have htail : alookup rest k = none := alookup_eq_none_of_not_mem rest k hcons.1
      have hrest := ih hcons.2 hids'
      rw [htail] at hrest
      simp only [List.filterMap_cons, hv, Option.map_some', List.filter_cons,
        alookup]
      simp [hk, hrest]
    · have hrest := ih hcons.2 hids'
      simp only [List.filterMap_cons, hv, Option.map_some', List.filter_cons,
        alookup]
      simp [hk, hkid, hrest]

/-- C1: after a successful reconnection, every id still registered (its
sink is live and its request retained) is resent exactly once, carrying
the most recently observed cursor for that id or, when none was observed,
the cursor captured in the request at original subscribe time; this holds
for every pattern of per-resend send failures (`sendOk`), and reconnection
alone removes no registry entry (the worker state is returned unchanged). -/
theorem reconnect_resends_each_entry_once
    (enc : Request → Option (List UInt8)) (sendOk : Nat → Bool)
    (st : WorkerState) (id : Uuid) (req : Request) (sink : Sink)
    (henc : ∀ r, (enc r).isSome = true)
    (hnd : nodupKeys st.subscription_requests)
    (hids : ∀ p ∈ st.subscription_requests, (p.2).id = p.1)
    (hlive : alookup st.subscriptions id = some sink)
    (hreq : alookup st.subscription_requests id = some req) :
    ((attempt_reconnect_success enc sendOk st).1.filter (fun r => r.id = id)) =
      [{ req with cursor := (alookup st.subscription_cursor id).getD req.cursor }] ∧
    (attempt_reconnect_success enc sendOk st).2.2 = st := by
  constructor
  · have hfil := filter_resends_of_alookup st.subscription_cursor enc
      st.subscription_requests id henc hnd hids
    rw [hreq] at hfil
    simpa [attempt_reconnect_success] using hfil
  · rfl

/-- C1 (witness): a registry holding one live entry for id 1 whose last
observed cursor is `x` resends it exactly once with cursor `x`, and the
state is unchanged, under an always-failing send oracle. -/
theorem reconnect_resends_each_entry_once_witness :
    ((attempt_reconnect_success (fun _ => some []) (fun _ => false)
        (WorkerState.mk [(1, Sink.mk true [])]
          [(1, Request.mk 1 (Operation.mk "getStatus") Format.JsonStream false "")]
          [(1, "x")])).1.filter (fun r => r.id = 1)) =
      [Request.mk 1 (Operation.mk "getStatus") Format.JsonStream false "x"] :=
  (reconnect_resends_each_entry_once (fun _ => some []) (fun _ => false)
    (WorkerState.mk [(1, Sink.mk true [])]
      [(1, Request.mk 1 (Operation.mk "getStatus") Format.JsonStream false "")]
      [(1, "x")])
    1 (Request.mk 1 (Operation.mk "getStatus") Format.JsonStream false "")
    (Sink.mk true [])
    (fun _ => rfl) (by decide) (by decide) rfl rfl).1

/-- C6: every request submitted through the client-facing handle after the
session's operations queue has been closed returns immediately with the
fatal `BackendShutDown` error. -/
theorem request_after_shutdown_fails (operation : Operation) (format : Format)
    (deltas : Bool) (delivered : List WsResult) :
    WsProvider.request (WsProvider.mk true) operation format deltas delivered =
      Except.error Error.BackendShutDown := rfl

theorem filterMap_nonempty_eq_filter (l : List WsResult) :
    (l.filterMap (fun item =>
        match item with
        | Except.ok data => if data.isEmpty then none else some (Except.ok data)
        | Except.error e => some (Except.error e))) =
      l.filter (fun item =>
        match item with
        | Except.ok data => !data.isEmpty
        | Except.error _ => true) := by
  induction l with
  | nil => rfl
  | cons x rest ih =>
    cases x with
    | ok data =>
      cases data with
      | nil => exact ih
      | cons b bs => exact congrArg (List.cons (Except.ok (b :: bs))) ih
    | error e => exact congrArg (List.cons (Except.error e)) ih

/-- C9: on an open session, the caller-facing stream yields a successful
chunk exactly when its payload is non-empty (empty successful chunks are
filtered out), and error items pass through unfiltered: the returned
stream is the filter of the delivered items. -/
theorem stream_filters_empty_chunks (operation : Operation) (format : Format)
    (deltas : Bool) (delivered : List WsResult) :
    WsProvider.request (WsProvider.mk false) operation format deltas delivered =
      Except.ok (delivered.filter (fun item =>
        match item with
        | Except.ok data => !data.isEmpty
        | Except.error _ => true)) := by
  simp only [WsProvider.request]
  rw [if_neg (by simp)]
  rw [filterMap_nonempty_eq_filter]

theorem splitFirstNewline_eq (data : List UInt8) :
    splitFirstNewline data =
      if (0x0A : UInt8) ∈ data then
        some (data.takeWhile (fun b => b ≠ 0x0A),
          (data.dropWhile (fun b => b ≠ 0x0A)).drop 1)
      else none := by
  induction data with
  | nil => simp [splitFirstNewline]
  | cons b rest ih =>
    by_cases hb : b = 0x0A
    · subst hb
      simp [splitFirstNewline, List.takeWhile_cons, List.dropWhile_cons]
    · have hb' : ¬((0x0A : UInt8) = b) := fun hEq => hb hEq.symm
      simp only [splitFirstNewline, if_neg hb, ih]
      by_cases hmem : (0x0A : UInt8) ∈ rest
      · simp [hmem, hb, hb', List.takeWhile_cons, List.dropWhile_cons]
      · simp [hmem, hb, hb']

theorem gen1_decode_spec (bin : List UInt8) (hlen : 21 ≤ bin.length) :
    ∃ b0 t, bin.drop (bin.length - 21) = b0 :: t ∧
      Gen1.Header.try_from_data bin =
        (match Gen1.MsgMarker.from_bits b0 with
         | none => Gen1.DecodeOutcome.err Error.UnexpectedMessageFormat
         | some marker => Gen1.DecodeOutcome.ok
            (Gen1.Header.mk marker
              (Gen1.uuidFromBytesLe (((b0 :: t).drop 1).take 16))
              (Gen1.u32FromBeBytes ((b0 :: t).drop 17)),
             bin.take (bin.length - 21))) := by
  have hhl : (bin.drop (bin.length - 21)).length = 21 := by
    rw [List.length_drop]; omega
  cases hh : bin.drop (bin.length - 21) with
  | nil => rw [hh] at hhl; simp at hhl
  | cons b0 t =>
    have htl : t.length = 20 := by
      rw [hh] at hhl; simpa using hhl
    refine ⟨b0, t, rfl, ?_⟩
    unfold Gen1.Header.try_from_data
    rw [if_neg (by omega : ¬ bin.length < 21), hh]
    simp only [List.head?_cons]
    cases hm : Gen1.MsgMarker.from_bits b0 with
    | none => rfl
    | some marker =>
      simp [htl]

/-- C7: frame decoding splits the inbound buffer into a header and the
remaining payload and fails exactly when the delimiter is absent (no
newline byte in the line-structured variant; a buffer shorter than the
21-byte trailer in the binary-offset variant) or the header itself fails
to parse (the JSON header parse in the line variant; an invalid marker
byte in the binary variant); on success the payload bytes are returned
unchanged (the bytes after the first newline, resp. the bytes before the
trailer). -/
theorem frame_decode_exact (parseHeader : List UInt8 → Option Header)
    (data bin : List UInt8) :
    ((∃ hp, Header.try_from_data parseHeader data = Except.ok hp) ↔
      ((0x0A : UInt8) ∈ data ∧
        (parseHeader (data.takeWhile (fun b => b ≠ 0x0A))).isSome = true)) ∧
    (∀ h payload, Header.try_from_data parseHeader data = Except.ok (h, payload) →
      payload = (data.dropWhile (fun b => b ≠ 0x0A)).drop 1 ∧
      parseHeader (data.takeWhile (fun b => b ≠ 0x0A)) = some h) ∧
    ((∃ hp, Gen1.Header.try_from_data bin = Gen1.DecodeOutcome.ok hp) ↔
      (21 ≤ bin.length ∧
        ∃ b0 t, bin.drop (bin.length - 21) = b0 :: t ∧ b0 &&& 0x38 = 0)) ∧
    (∀ h payload, Gen1.Header.try_from_data bin = Gen1.DecodeOutcome.ok (h, payload) →
      payload = bin.take (bin.length - 21)) := by
  have hline : Header.try_from_data parseHeader data =
      (if (0x0A : UInt8) ∈ data then
        match parseHeader (data.takeWhile (fun b => b ≠ 0x0A)) with
        | none => Except.error (Error.SerdeJson "header")
        | some header =>
          Except.ok (header, (data.dropWhile (fun b => b ≠ 0x0A)).drop 1)
      else Except.error Error.UnexpectedMessageFormat) := by
    unfold Header.try_from_data
    rw [splitFirstNewline_eq]
    by_cases hmem : (0x0A : UInt8) ∈ data
    · rw [if_pos hmem, if_pos hmem]
    · rw [if_neg hmem, if_neg hmem]
  refine ⟨?_, ?_, ?_, ?_⟩
  · rw [hline]
    by_cases hmem : (0x0A : UInt8) ∈ data
    · rw [if_pos hmem]
      cases hp : parseHeader (data.takeWhile (fun b => b ≠ 0x0A)) with
      | none => simp [hmem, hp]
      | some header => simp [hmem, hp]
    · rw [if_neg hmem]
      simp [hmem]
  · intro h payload hok
    rw [hline] at hok
    by_cases hmem : (0x0A : UInt8) ∈ data
    · rw [if_pos hmem] at hok
      cases hp : parseHeader (data.takeWhile (fun b => b ≠ 0x0A)) with
      | none => rw [hp] at hok; cases hok
      | some header =>
        rw [hp] at hok
        cases hok
        exact ⟨rfl, rfl⟩
    · rw [if_neg hmem] at hok; cases hok
  · constructor
    · rintro ⟨hp, hok⟩
      by_cases hlen : 21 ≤ bin.length
      · obtain ⟨b0, t, hh, hspec⟩ := gen1_decode_spec bin hlen
        refine ⟨hlen, b0, t, hh, ?_⟩
        by_cases hbits : b0 &&& 0x38 = 0
        · exact hbits
        · rw [hspec] at hok
          unfold Gen1.MsgMarker.from_bits at hok
          rw [if_neg hbits] at hok
          cases hok
      · exfalso
        unfold Gen1.Header.try_from_data at hok
        rw [if_pos (by omega)] at hok
        cases hok
    · rintro ⟨hlen, b0, t, hh, hbits⟩
      obtain ⟨b0', t', hh', hspec⟩ := gen1_decode_spec bin hlen
      rw [hh] at hh'
      injection hh' with h1 h2
      subst h1
      subst h2
      rw [hspec]
      unfold Gen1.MsgMarker.from_bits
      rw [if_pos hbits]
      exact ⟨_, rfl⟩
  · intro h payload hok
    by_cases hlen : 21 ≤ bin.length
    · obtain ⟨b0, t, hh, hspec⟩ := gen1_decode_spec bin hlen
      rw [hspec] at hok
      cases hm : Gen1.MsgMarker.from_bits b0 with
      | none => rw [hm] at hok; cases hok
      | some marker =>
        rw [hm] at hok
        cases hok
        rfl
    · unfold Gen1.Header.try_from_data at hok
      rw [if_pos (by omega)] at hok
      cases hok

/-- C7 (witness): a concrete line-structured frame with its header before
the newline and the payload after it decodes to that payload unchanged,
and a concrete 21-byte-trailer binary frame returns the leading payload
bytes unchanged. -/
theorem frame_decode_exact_witness :
    (([0x61] : List UInt8) =
      ((([0x42, 0x0A, 0x61] : List UInt8).dropWhile (fun b => b ≠ 0x0A)).drop 1) ∧
      (fun _ => some (Header.mk Kind.Start (MsgId.mk 1) 0 none none))
          (([0x42, 0x0A, 0x61] : List UInt8).takeWhile (fun b => b ≠ 0x0A)) =
        some (Header.mk Kind.Start (MsgId.mk 1) 0 none none)) :=
  (frame_decode_exact
    (fun _ => some (Header.mk Kind.Start (MsgId.mk 1) 0 none none))
    [0x42, 0x0A, 0x61] []).2.1
    (Header.mk Kind.Start (MsgId.mk 1) 0 none none) [0x61] (by decide)

/-- C10: frame-header decoding is a total function over arbitrary byte
buffers: the binary-trailer variant never reaches a panicking access and
always returns a decoded pair or the malformed-format error (including on
the empty buffer and buffers shorter than the 21-byte trailer), and the
line-structured variant, for every header-parse oracle, returns a decoded
pair or an error (missing newline, or the converted serde parse error). -/
theorem frame_decode_total (parseHeader : List UInt8 → Option Header)
    (data bin : List UInt8) :
    (Gen1.Header.try_from_data bin ≠ Gen1.DecodeOutcome.panicked ∧
      ((∃ hp, Gen1.Header.try_from_data bin = Gen1.DecodeOutcome.ok hp) ∨
        Gen1.Header.try_from_data bin =
          Gen1.DecodeOutcome.err Error.UnexpectedMessageFormat)) ∧
    ((∃ hp, Header.try_from_data parseHeader data = Except.ok hp) ∨
      Header.try_from_data parseHeader data =
        Except.error Error.UnexpectedMessageFormat ∨
      ∃ s, Header.try_from_data parseHeader data =
        Except.error (Error.SerdeJson s)) := by
  constructor
  · have hcase : (∃ hp, Gen1.Header.try_from_data bin = Gen1.DecodeOutcome.ok hp) ∨
        Gen1.Header.try_from_data bin =
          Gen1.DecodeOutcome.err Error.UnexpectedMessageFormat := by
      by_cases hlen : 21 ≤ bin.length
      · obtain ⟨b0, t, hh, hspec⟩ := gen1_decode_spec bin hlen
        cases hm : Gen1.MsgMarker.from_bits b0 with
        | none => right; rw [hspec, hm]
        | some marker => left; rw [hspec, hm]; exact ⟨_, rfl⟩
      · right
        unfold Gen1.Header.try_from_data
        rw [if_pos (by omega)]
    refine ⟨?_, hcase⟩
    rcases hcase with ⟨hp, hok⟩ | herr
    · rw [hok]; intro hEq; cases hEq
    · rw [herr]; intro hEq; cases hEq
  · unfold Header.try_from_data
    cases hs : splitFirstNewline data with
    | none => right; left; rfl
    | some pr =>
      obtain ⟨hd, tl⟩ := pr
      cases hp : parseHeader hd with
      | none =>
        right; right
        refine ⟨"header", ?_⟩
        simp [hp]
      | some header =>
        left
        refine ⟨(header, tl), ?_⟩
        simp [hp]

/-- C10 (witness): on the empty buffer the binary-trailer decoder does not
panic (it reports the malformed-format error). -/
theorem frame_decode_total_witness :
    Gen1.Header.try_from_data [] ≠ Gen1.DecodeOutcome.panicked :=
  (frame_decode_total (fun _ => none) [] []).1.1

/-- C8 (counterexample): the claim assigns the serialized form `latest-N`
to a bound defined `N` blocks before the latest height; serialization of
`FromLatest 5` actually produces the integer `-5`, and produces no
`latest-5` string. -/
theorem bound_serialize_counterexample :
    Bound.serialize (Bound.FromLatest 5) = SerValue.int (-5) ∧
    Bound.serialize (Bound.FromLatest 5) ≠ SerValue.str "latest-5" := by
  constructor
  · show SerValue.int (i64Wrap (-(i64Wrap (5 : Nat)))) = SerValue.int (-5)
    norm_num [i64Wrap, Int.add_mul_emod_self_left]
  · intro hEq
    cases hEq

/-- C8 (amended): every block-range bound serializes as either an integer
or the strings `latest` or `none`: `Exact n` as the integer `n`,
`FromLatest N` as the negative integer `-N` (for `N` within the `i64`
range; the string `latest-N` is accepted by the deserializer but never
produced), `Latest` as `latest`, and `Subscribe` as `none`. -/
theorem bound_serialize_forms :
    (∀ b : Bound, (∃ n : Int, Bound.serialize b = SerValue.int n) ∨
      Bound.serialize b = SerValue.str "latest" ∨
      Bound.serialize b = SerValue.str "none") ∧
    (∀ n : Int, Bound.serialize (Bound.Exact n) = SerValue.int n) ∧
    (∀ n : Nat, n < 2 ^ 63 →
      Bound.serialize (Bound.FromLatest n) = SerValue.int (-(n : Int))) ∧
    Bound.serialize Bound.Latest = SerValue.str "latest" ∧
    Bound.serialize Bound.Subscribe = SerValue.str "none" := by
  refine ⟨?_, fun n => rfl, ?_, rfl, rfl⟩
  · intro b
    cases b with
    | Exact n => exact Or.inl ⟨n, rfl⟩
    | FromLatest n => exact Or.inl ⟨_, rfl⟩
    | Latest => exact Or.inr (Or.inl rfl)
    | Subscribe => exact Or.inr (Or.inr rfl)
  · intro n hn
    show SerValue.int (i64Wrap (-(i64Wrap (n : Nat)))) = SerValue.int (-(n : Int))
    have h1 : i64Wrap ((n : Nat) : Int) = (n : Int) := by
      unfold i64Wrap
      omega
    have h2 : i64Wrap (-(n : Int)) = -(n : Int) := by
      unfold i64Wrap
      omega
    rw [h1, h2]

/-- C8 (witness): serializing the bound seven blocks before the latest
height yields the integer `-7`. -/
theorem bound_serialize_forms_witness :
    Bound.serialize (Bound.FromLatest 7) = SerValue.int (-7) :=
  bound_serialize_forms.2.2.1 7 (by norm_num)

end Superchain
